import Mathlib

/-!
Verification of the ahatconfig configuration-loading library (src/config.go)
against its natural-language specification.

The Go code is shallowly embedded: struct types with their tags become the
inductive `GoTy` over `FieldTags`, runtime values become `GoVal`, the process
environment becomes an association list `Env` (with `os.Getenv` returning ""
for absent keys, exactly as in Go), and each function of src/config.go is
translated into a Lean function of the same name.  Reflection-based dynamic
typing is modelled by letting `GoVal` carry the dynamic type where it matters
(`parseEnvValue` produces a plain `int` / `float64` dynamic value, and
`assign` models the assignability check of `reflect.Value.Set` /
`reflect.Append`, whose failure is a runtime panic).

The index loop of `loadStructSliceEnv` probes environment indices 0,1,2,…
until an index shows no environment activity; in Go it terminates because the
environment is finite.  The embedding makes that loop (and the mutual
recursion it participates in) structurally recursive on an explicit fuel
counter; exhausted fuel yields the outcome `.div`, which no Go execution
produces, so every theorem concluding `.ok`/`.err`/`.panic` implicitly shows
the fuel sufficed.

Strings: Go's `strings.ToUpper`, `strings.ReplaceAll(s, "-", "_")`,
`strings.Split(s, ",")` and `strings.TrimSpace` are implemented over the
character list of the string (ASCII case mapping; Go's full Unicode case
table is not exercised by the loader's inputs).  `strconv.Atoi`,
`strconv.ParseBool` and `strconv.ParseFloat` are modelled exactly for Atoi
and ParseBool; ParseFloat is modelled on its decimal forms, with the value
kept as an exact pair mantissa/10^scale (IEEE rounding, hex floats, Inf and
NaN are not exercised by any claim).
-/

namespace AhatConfig

/-- Per-field tag metadata, mirroring `FieldInfo` of src/config.go (Name,
EnvTag, DefaultValue, Required, Secret); the reflective extraction in
`getCachedTypeInfo` is the identity in this embedding. -/
structure FieldTags where
  name : String
  envTag : String
  defaultValue : String
  required : Bool
  secret : Bool
deriving DecidableEq, Repr

/-- Go field types supported by the loader: the scalar kinds dispatched in
`parseEnvValue`/`isZero`, slices, and nested structs (each struct field
paired with its tags). -/
inductive GoTy where
  | tstring
  | tint
  | tint8
  | tint16
  | tint32
  | tint64
  | tbool
  | tfloat64
  | tfloat32
  | tslice (elem : GoTy)
  | tstruct (fields : List (FieldTags × GoTy))

/-- An exact float value mantissa / 10 ^ scale, the result of the modelled
`strconv.ParseFloat`; only zero-ness and syntactic identity are ever
observed by the loader. -/
structure GoFlt where
  mant : Int
  scale : Nat
deriving DecidableEq, Repr

/-- Go runtime values together with their dynamic type: the sized integer
kinds and `float32` are distinct from `int`/`float64`, because
`reflect.Value.Set` panics on a dynamic-type mismatch.  A slice value
carries its element type (slices are only assignable at identical type). -/
inductive GoVal where
  | vstring (s : String)
  | vint (n : Int)
  | vint8 (n : Int)
  | vint16 (n : Int)
  | vint32 (n : Int)
  | vint64 (n : Int)
  | vbool (b : Bool)
  | vfloat64 (x : GoFlt)
  | vfloat32 (x : GoFlt)
  | vslice (ety : GoTy) (elems : List GoVal)
  | vstruct (fields : List GoVal)

/-- Errors returned by the loader, in the structured form the spec's error
taxonomy names them; `parseErr fn raw` is a strconv failure carrying the
offending raw string, and `fieldParse` is the wrapping
"failed to parse env value for field %s: %w". -/
inductive Err where
  | parseErr (fn : String) (raw : String)
  | unsupportedType
  | fieldParse (field : String) (e : Err)
  | requiredMissing (tag : String)
  | fileDecode
  | notInitialized
  | typeMismatch
deriving DecidableEq, Repr

/-- Outcome of a Go computation: normal return, returned error, runtime
panic, or `.div` for fuel exhaustion of the embedding (never produced by a
Go execution). -/
inductive Res (α : Type) where
  | ok (a : α)
  | err (e : Err)
  | panic (msg : String)
  | div
deriving DecidableEq, Repr

/-- Outcome of a mutating Go computation whose in-place updates survive an
error return: `.err a e` carries the state as mutated up to the failure
point, matching how `loadStructEnv` leaves earlier fields updated when a
later field fails. -/
inductive PRes (α : Type) where
  | ok (a : α)
  | err (a : α) (e : Err)
  | panic (msg : String)
  | div
deriving DecidableEq, Repr

/-- The process environment; `os.Getenv` yields "" both for an absent key
and for a key set to the empty string, so Go code cannot distinguish the
two. -/
abbrev Env := List (String × String)

/-- Modelled `os.Getenv`: first binding wins, absent keys read as "". -/
def getenv (env : Env) (key : String) : String :=
  match env.find? (fun p => p.1 == key) with
  | some p => p.2
  | none => ""

/-- ASCII upper-casing of one character (`strings.ToUpper` restricted to the
ASCII range actually exercised). -/
def upperChar (c : Char) : Char :=
  if 'a' ≤ c ∧ c ≤ 'z' then Char.ofNat (c.toNat - 32) else c

/-- Modelled `strings.ToUpper`. -/
def upperStr (s : String) : String :=
  String.mk (s.data.map upperChar)

/-- Modelled `strings.ReplaceAll(s, "-", "_")` (the pattern is a single
character, so this is a character map). -/
def replaceDash (s : String) : String :=
  String.mk (s.data.map (fun c => if c = '-' then '_' else c))

/-- Split a character list at commas (`strings.Split(s, ",")` for the
single-character separator). -/
def splitCommaAux : List Char → List Char → List String
  | [], acc => [String.mk acc.reverse]
  | c :: rest, acc =>
      if c = ',' then String.mk acc.reverse :: splitCommaAux rest []
      else splitCommaAux rest (c :: acc)

/-- Modelled `strings.Split(s, ",")`. -/
def splitComma (s : String) : List String :=
  splitCommaAux s.data []

/-- ASCII whitespace as trimmed by `strings.TrimSpace`. -/
def isSpaceGo (c : Char) : Bool :=
  c = ' ' ∨ c = '\t' ∨ c = '\n' ∨ c = Char.ofNat 11 ∨ c = Char.ofNat 12 ∨ c = '\r'

/-- Modelled `strings.TrimSpace`. -/
def trimGo (s : String) : String :=
  String.mk (((s.data.dropWhile isSpaceGo).reverse.dropWhile isSpaceGo).reverse)

/-- Decimal digits of a natural number (auxiliary, fuelled by the number
itself, which always suffices). -/
def natToStrAux : Nat → Nat → List Char
  | 0, _ => []
  | f + 1, n =>
      if n < 10 then [Char.ofNat (n + 48)]
      else natToStrAux f (n / 10) ++ [Char.ofNat (n % 10 + 48)]

/-- Decimal rendering of a natural number, as `fmt.Sprintf("%d", i)` renders
the slice index. -/
def natToStr (n : Nat) : String :=
  String.mk (natToStrAux (n + 1) n)

/-- Value of a digit list read in base 10. -/
def digitsVal (ds : List Char) : Nat :=
  ds.foldl (fun a c => a * 10 + (c.toNat - 48)) 0

/-- Modelled `strconv.Atoi`: optional sign, a nonempty run of digits, and
the 64-bit `int` range check (Atoi is ParseInt with bitSize 0 = the platform
int, 64-bit). -/
def parseGoInt (s : String) : Option Int :=
  match s.data with
  | [] => none
  | c :: rest =>
    let neg := c = '-'
    let ds := if c = '-' ∨ c = '+' then rest else c :: rest
    if ds.isEmpty then none
    else if ds.all Char.isDigit then
      let n : Nat := digitsVal ds
      let v : Int := if neg then -(n : Int) else (n : Int)
      if -(2 ^ 63) ≤ v ∧ v < 2 ^ 63 then some v else none
    else none

/-- Modelled `strconv.ParseBool`: exactly the twelve accepted literals. -/
def parseGoBool (s : String) : Option Bool :=
  if s = "1" ∨ s = "t" ∨ s = "T" ∨ s = "true" ∨ s = "TRUE" ∨ s = "True" then some true
  else if s = "0" ∨ s = "f" ∨ s = "F" ∨ s = "false" ∨ s = "FALSE" ∨ s = "False" then some false
  else none

/-- Modelled `strconv.ParseFloat` on decimal forms: optional sign, digits
with an optional fraction, optional decimal exponent; the value is kept
exactly as mantissa / 10 ^ scale. -/
def parseGoFloat (s : String) : Option GoFlt :=
  let cs0 := s.data
  let neg := match cs0 with
    | '-' :: _ => true
    | _ => false
  let cs := match cs0 with
    | '-' :: r => r
    | '+' :: r => r
    | r => r
  let ip := cs.takeWhile Char.isDigit
  let cs1 := cs.dropWhile Char.isDigit
  let fp := match cs1 with
    | '.' :: r => r.takeWhile Char.isDigit
    | _ => []
  let cs2 := match cs1 with
    | '.' :: r => r.dropWhile Char.isDigit
    | r => r
  if ip.length + fp.length = 0 then none
  else
    let m0 : Nat := digitsVal (ip ++ fp)
    let m1 : Int := if neg then -(m0 : Int) else (m0 : Int)
    match cs2 with
    | [] => some ⟨m1, fp.length⟩
    | e :: r =>
      if e = 'e' ∨ e = 'E' then
        let eneg := match r with
          | '-' :: _ => true
          | _ => false
        let r2 := match r with
          | '-' :: r2 => r2
          | '+' :: r2 => r2
          | r2 => r2
        if r2.length ≠ 0 ∧ r2.all Char.isDigit then
          let ex := digitsVal r2
          if eneg then some ⟨m1, fp.length + ex⟩
          else some ⟨m1 * (10 : Int) ^ ex, fp.length⟩
        else none
      else none

mutual
/-- Boolean type equality on `GoTy`, standing in for Go type identity in
`reflect` assignability and in the `instance.(*T)` type assertion. -/
def GoTy.beq : GoTy → GoTy → Bool
  | .tstring, .tstring => true
  | .tint, .tint => true
  | .tint8, .tint8 => true
  | .tint16, .tint16 => true
  | .tint32, .tint32 => true
  | .tint64, .tint64 => true
  | .tbool, .tbool => true
  | .tfloat64, .tfloat64 => true
  | .tfloat32, .tfloat32 => true
  | .tslice a, .tslice b => GoTy.beq a b
  | .tstruct fs, .tstruct gs => beqFields fs gs
  | _, _ => false

/-- Type equality on struct field lists (tags and types). -/
def beqFields : List (FieldTags × GoTy) → List (FieldTags × GoTy) → Bool
  | [], [] => true
  | (t, a) :: fs, (u, b) :: gs => t == u && GoTy.beq a b && beqFields fs gs
  | _, _ => false
end

mutual
/-- The zero value of a Go type at its exact type, as produced by
`reflect.New(t).Elem()` and `reflect.Zero(t)`. -/
def zeroVal : GoTy → GoVal
  | .tstring => .vstring ""
  | .tint => .vint 0
  | .tint8 => .vint8 0
  | .tint16 => .vint16 0
  | .tint32 => .vint32 0
  | .tint64 => .vint64 0
  | .tbool => .vbool false
  | .tfloat64 => .vfloat64 ⟨0, 0⟩
  | .tfloat32 => .vfloat32 ⟨0, 0⟩
  | .tslice e => .vslice e []
  | .tstruct fs => .vstruct (zeroFields fs)

/-- Zero values of a struct's fields, in declaration order. -/
def zeroFields : List (FieldTags × GoTy) → List GoVal
  | [] => []
  | (_, ty) :: fs => zeroVal ty :: zeroFields fs
end

/-- Modelled `getZeroValue` of src/config.go: note that for every integer
kind it returns the untyped constant 0, whose dynamic type in an
`interface{}` is the plain `int`, and for both float kinds the constant 0.0
of dynamic type `float64`; only the default branch (`reflect.Zero(t)`)
produces the exact type. -/
def getZeroValue : GoTy → GoVal
  | .tstring => .vstring ""
  | .tint | .tint8 | .tint16 | .tint32 | .tint64 => .vint 0
  | .tbool => .vbool false
  | .tfloat64 | .tfloat32 => .vfloat64 ⟨0, 0⟩
  | .tslice e => .vslice e []
  | .tstruct fs => .vstruct (zeroFields fs)

/-- Modelled `isZero` of src/config.go: strings by length, integer and
float kinds by value, slices by length; every other kind — in particular
`Bool` — falls into the default branch and is never zero. -/
def isZero : GoVal → Bool
  | .vstring s => s.length == 0
  | .vint n => n == 0
  | .vint8 n => n == 0
  | .vint16 n => n == 0
  | .vint32 n => n == 0
  | .vint64 n => n == 0
  | .vfloat64 x => x.mant == 0
  | .vfloat32 x => x.mant == 0
  | .vslice _ es => es.length == 0
  | _ => false

/-- The assignability check performed by `reflect.Value.Set` and
`reflect.Append`: a dynamic value stores into a field only at identical
type; `none` models the runtime panic on mismatch.  (A `vstruct` dynamic
only ever arises from `reflect.Zero` at the exact field type.) -/
def assign : GoTy → GoVal → Option GoVal
  | .tstring, .vstring s => some (.vstring s)
  | .tint, .vint n => some (.vint n)
  | .tint8, .vint8 n => some (.vint8 n)
  | .tint16, .vint16 n => some (.vint16 n)
  | .tint32, .vint32 n => some (.vint32 n)
  | .tint64, .vint64 n => some (.vint64 n)
  | .tbool, .vbool b => some (.vbool b)
  | .tfloat64, .vfloat64 x => some (.vfloat64 x)
  | .tfloat32, .vfloat32 x => some (.vfloat32 x)
  | .tslice e, .vslice f es => if GoTy.beq e f then some (.vslice f es) else none
  | .tstruct _, .vstruct svs => some (.vstruct svs)
  | _, _ => none

/-- Element-wise parsing loop of `parseSliceValue`: parse each (nonempty,
trimmed) element and `reflect.Append` it, panicking on a dynamic-type
mismatch exactly as `reflect.Append` does. -/
def parseSliceElems (pe : String → Res GoVal) (ety : GoTy) : List String → Res (List GoVal)
  | [] => .ok []
  | s :: rest =>
      match pe s with
      | .ok dyn =>
          (match assign ety dyn with
           | some v' =>
               (match parseSliceElems pe ety rest with
                | .ok l => .ok (v' :: l)
                | .err e => .err e
                | .panic m => .panic m
                | .div => .div)
           | none => .panic ("reflect.Append: type mismatch"))
      | .err e => .err e
      | .panic m => .panic m
      | .div => .div

/-- Modelled `parseSliceValue` of src/config.go: split on commas, trim each
element, skip elements empty after trimming, parse the rest in order; the
result is a slice of exactly the target slice type. -/
def parseSliceValue (pe : String → Res GoVal) (ety : GoTy) (s : String) : Res GoVal :=
  let parts := ((splitComma s).map trimGo).filter (fun x => x != "")
  match parseSliceElems pe ety parts with
  | .ok l => .ok (.vslice ety l)
  | .err e => .err e
  | .panic m => .panic m
  | .div => .div

/-- Modelled `parseEnvValue` of src/config.go: empty input yields
`getZeroValue`; strings are identity; every integer kind goes through
`strconv.Atoi` (dynamic type `int`); bool through `strconv.ParseBool`; both
float kinds through `strconv.ParseFloat(envValue, 64)` (dynamic type
`float64`); slices recurse element-wise; any other kind is the
"unsupported type" error. -/
def parseEnvValue : GoTy → String → Res GoVal
  | .tstring => fun s =>
      if s = "" then .ok (getZeroValue .tstring) else .ok (.vstring s)
  | .tint => fun s =>
      if s = "" then .ok (getZeroValue .tint)
      else match parseGoInt s with
        | some n => .ok (.vint n)
        | none => .err (.parseErr ("Atoi") s)
  | .tint8 => fun s =>
      if s = "" then .ok (getZeroValue .tint8)
      else match parseGoInt s with
        | some n => .ok (.vint n)
        | none => .err (.parseErr ("Atoi") s)
  | .tint16 => fun s =>
      if s = "" then .ok (getZeroValue .tint16)
      else match parseGoInt s with
        | some n => .ok (.vint n)
        | none => .err (.parseErr ("Atoi") s)
  | .tint32 => fun s =>
      if s = "" then .ok (getZeroValue .tint32)
      else match parseGoInt s with
        | some n => .ok (.vint n)
        | none => .err (.parseErr ("Atoi") s)
  | .tint64 => fun s =>
      if s = "" then .ok (getZeroValue .tint64)
      else match parseGoInt s with
        | some n => .ok (.vint n)
        | none => .err (.parseErr ("Atoi") s)
  | .tbool => fun s =>
      if s = "" then .ok (getZeroValue .tbool)
      else match parseGoBool s with
        | some b => .ok (.vbool b)
        | none => .err (.parseErr ("ParseBool") s)
  | .tfloat64 => fun s =>
      if s = "" then .ok (getZeroValue .tfloat64)
      else match parseGoFloat s with
        | some x => .ok (.vfloat64 x)
        | none => .err (.parseErr ("ParseFloat") s)
  | .tfloat32 => fun s =>
      if s = "" then .ok (getZeroValue .tfloat32)
      else match parseGoFloat s with
        | some x => .ok (.vfloat64 x)
        | none => .err (.parseErr ("ParseFloat") s)
  | .tslice e => fun s =>
      if s = "" then .ok (getZeroValue (.tslice e))
      else parseSliceValue (parseEnvValue e) e s
  | .tstruct fs => fun s =>
      if s = "" then .ok (getZeroValue (.tstruct fs)) else .err .unsupportedType

/-- The environment key for one field: normalized prefix (upper-cased,
hyphens to underscores) joined by "_" with the upper-cased env tag, or the
upper-cased field name when no tag is declared (src/config.go lines
373-378). -/
def envKeyBase (pfx : String) (t : FieldTags) : String :=
  let np := replaceDash (upperStr pfx)
  if t.envTag = "" then np ++ "_" ++ upperStr t.name
  else np ++ "_" ++ upperStr t.envTag

/-- Modelled `hasStructDefaultValues`: some field of the (top level of the)
struct declares a default. -/
def hasStructDefaultValues (fields : List (FieldTags × GoTy)) : Bool :=
  fields.any (fun p => p.1.defaultValue != "")

/-- The effective tag of a field inside `loadStructSliceEnv` and
`hasStructSliceEnvValues`: the env tag, or the field name when absent. -/
def tagOrName (t : FieldTags) : String :=
  if t.envTag = "" then t.name else t.envTag

/-- Display name used by required-field errors: env tag if declared, else
the field identifier (src/config.go lines 259-262). -/
def displayName (t : FieldTags) : String :=
  if t.envTag = "" then t.name else t.envTag

mutual
/-- Modelled `hasStructEnvValues` of src/config.go: walks the struct's
fields (the reflect value argument is consulted only for field kinds, which
the type already determines): a slice-of-struct field probes index 0 via
`hasStructSliceEnvValues`, a nested struct recurses, and any other field
reports whether its key is set to a nonempty value.  First argument is the
fuel of the embedding. -/
def hasStructEnvValues : Nat → Env → String → List (FieldTags × GoTy) → Bool
  | _, _, _, [] => false
  | 0, _, _, _ :: _ => false
  | n + 1, env, pfx, (t, ty) :: fs =>
      (match ty with
       | .tslice (.tstruct efs) => hasStructSliceEnvValues n env (envKeyBase pfx t) efs
       | .tstruct sfs => hasStructEnvValues n env (envKeyBase pfx t) sfs
       | _ => getenv env (envKeyBase pfx t) != "")
      || hasStructEnvValues n env pfx fs

/-- Modelled `hasStructSliceEnvValues` of src/config.go: probes only index
0 of the slice; for each field of the element struct, checks the direct key
NP_0_TAG, and for a nested struct field additionally recurses below that
key. -/
def hasStructSliceEnvValues : Nat → Env → String → List (FieldTags × GoTy) → Bool
  | _, _, _, [] => false
  | 0, _, _, _ :: _ => false
  | n + 1, env, pfx, (t, ty) :: fs =>
      let fieldEnvKey := replaceDash (upperStr pfx) ++ "_0_" ++ upperStr (tagOrName t)
      (getenv env fieldEnvKey != "")
      || (match ty with
          | .tstruct sfs => hasStructEnvValues n env fieldEnvKey sfs
          | _ => false)
      || hasStructSliceEnvValues n env pfx fs
end

/-- Prepend a kept slice element to the outcome of probing the remaining
indices. -/
def resCons (v : GoVal) : Res (List GoVal) → Res (List GoVal)
  | .ok rest => .ok (v :: rest)
  | .err e => .err e
  | .panic m => .panic m
  | .div => .div

/-- Prepend an updated field value to the outcome of processing the
remaining fields, keeping the partially-updated state of an error
(`loadStructEnv` mutates `v.Field(i)` in place, so fields updated before a
failure survive it). -/
def consPRes (v' : GoVal) : PRes (List GoVal) → PRes (List GoVal)
  | .ok l => .ok (v' :: l)
  | .err l e => .err (v' :: l) e
  | .panic m => .panic m
  | .div => .div

mutual
/-- Modelled `loadStructEnv` of src/config.go (lines 366-433): processes
the struct's fields in declaration order; the per-iteration body is
`loadFieldEnv`.  A returned error aborts the loop with earlier fields
already updated in place; a panic aborts the process. -/
def loadStructEnv : Nat → Env → String → List (FieldTags × GoTy) → List GoVal → PRes (List GoVal)
  | _, _, _, [], _ => .ok []
  | _, _, _, _ :: _, [] => .ok []
  | 0, _, _, _ :: _, _ :: _ => .div
  | n + 1, env, pfx, (t, ty) :: fs, v :: vs =>
      match loadFieldEnv n env pfx t ty v with
      | .ok v' => consPRes v' (loadStructEnv n env pfx fs vs)
      | .err v' e => .err (v' :: vs) e
      | .panic m => .panic m
      | .div => .div

/-- The body of the per-field loop of `loadStructEnv`: a slice of structs
goes through `loadStructSliceEnv` and, when that produced at least one
element, replaces the field wholesale; a nested struct recurses only when
there is evidence of environment activity (a direct key, a recursive probe,
or a declared default below it); any other field applies the default when
the key is empty and the current value is zero, then parses and assigns a
nonempty value (`value.Set` panicking on dynamic-type mismatch) and
otherwise leaves the value untouched. -/
def loadFieldEnv : Nat → Env → String → FieldTags → GoTy → GoVal → PRes GoVal
  | n, env, pfx, t, .tslice (.tstruct efs), v =>
      (match n with
       | 0 => .div
       | m + 1 =>
         let ekb := envKeyBase pfx t
         match loadStructSliceEnvAux m env (replaceDash (upperStr ekb)) efs 0 with
         | .ok l => if l.length > 0 then .ok (.vslice (.tstruct efs) l) else .ok v
         | .err e => .err v e
         | .panic msg => .panic msg
         | .div => .div)
  | n, env, pfx, t, .tstruct sfs, v =>
      (match n with
       | 0 => .div
       | m + 1 =>
         let ekb := envKeyBase pfx t
         let envValue := getenv env ekb
         match v with
         | .vstruct svs =>
             if envValue != "" || hasStructEnvValues m env ekb sfs || hasStructDefaultValues sfs then
               match loadStructEnv m env ekb sfs svs with
               | .ok l => .ok (.vstruct l)
               | .err l e => .err (.vstruct l) e
               | .panic msg => .panic msg
               | .div => .div
             else .ok v
         | _ => .ok v)
  | _, env, pfx, t, ty, v =>
      let ekb := envKeyBase pfx t
      let envValue0 := getenv env ekb
      let envValue :=
        if envValue0 = "" ∧ t.defaultValue ≠ "" ∧ isZero v then t.defaultValue else envValue0
      if envValue != "" then
        match parseEnvValue ty envValue with
        | .ok dyn =>
            (match assign ty dyn with
             | some v' => .ok v'
             | none => .panic ("reflect.Set: type mismatch"))
        | .err e => .err v (.fieldParse t.name e)
        | .panic msg => .panic msg
        | .div => .div
      else .ok v

/-- The inner per-field loop of one index of `loadStructSliceEnv`
(src/config.go lines 535-593), threading the hasAnyEnvValue flag: a nested
struct field recurses through `loadStructEnv` and then probes
`hasStructEnvValues`; any other field records whether its key was set,
applies a declared default when the key is empty (with no zero-value
condition here, unlike the hybrid scalar path), fails on a required field
still empty while the flag is already set, and parses and assigns when the
value is nonempty or the fresh field is not zero. -/
def loadSliceFields : Nat → Env → String → Nat → List (FieldTags × GoTy) → List GoVal → Bool → Res (List GoVal × Bool)
  | _, _, _, _, [], _, acc => .ok ([], acc)
  | _, _, _, _, _ :: _, [], acc => .ok ([], acc)
  | 0, _, _, _, _ :: _, _ :: _, _ => .div
  | n + 1, env, np, i, (t, ty) :: fs, v :: vs, acc =>
      let envKey := np ++ "_" ++ natToStr i ++ "_" ++ upperStr (tagOrName t)
      let envVal := getenv env envKey
      match ty, v with
      | .tstruct sfs, .vstruct svs =>
          (match loadStructEnv n env envKey sfs svs with
           | .ok l =>
               let acc' := acc || hasStructEnvValues n env envKey sfs
               (match loadSliceFields n env np i fs vs acc' with
                | .ok (rest, hA) => .ok (.vstruct l :: rest, hA)
                | .err e => .err e
                | .panic m => .panic m
                | .div => .div)
           | .err _ e => .err e
           | .panic m => .panic m
           | .div => .div)
      | ty', v' =>
          let acc1 := acc || (envVal != "")
          let envVal1 := if envVal = "" ∧ t.defaultValue ≠ "" then t.defaultValue else envVal
          if envVal1 = "" ∧ t.required ∧ acc1 then .err (.requiredMissing (tagOrName t))
          else if envVal1 != "" || !(isZero v') then
            match parseEnvValue ty' envVal1 with
            | .ok dyn =>
                (match assign ty' dyn with
                 | some v2 =>
                     (match loadSliceFields n env np i fs vs acc1 with
                      | .ok (rest, hA) => .ok (v2 :: rest, hA)
                      | .err e => .err e
                      | .panic m => .panic m
                      | .div => .div)
                 | none => .panic ("reflect.Set: type mismatch"))
            | .err e => .err (.fieldParse t.name e)
            | .panic m => .panic m
            | .div => .div
          else
            (match loadSliceFields n env np i fs vs acc1 with
             | .ok (rest, hA) => .ok (v' :: rest, hA)
             | .err e => .err e
             | .panic m => .panic m
             | .div => .div)

/-- The index loop of `loadStructSliceEnv` (src/config.go lines 531-602):
build a fresh zero element for index i, populate its fields; if no
environment activity was observed for this index, stop without keeping the
element, otherwise keep it and continue with index i+1. -/
def loadStructSliceEnvAux : Nat → Env → String → List (FieldTags × GoTy) → Nat → Res (List GoVal)
  | 0, _, _, _, _ => .div
  | n + 1, env, np, fields, i =>
      match loadSliceFields n env np i fields (zeroFields fields) false with
      | .ok (evals, true) =>
          resCons (.vstruct evals) (loadStructSliceEnvAux n env np fields (i + 1))
      | .ok (_, false) => .ok []
      | .err e => .err e
      | .panic m => .panic m
      | .div => .div
end

/-- Modelled `loadStructSliceEnv` of src/config.go: normalizes the prefix
and probes contiguous indices from 0. -/
def loadStructSliceEnv (fuel : Nat) (env : Env) (pfx : String) (fields : List (FieldTags × GoTy)) : Res (List GoVal) :=
  loadStructSliceEnvAux fuel env (replaceDash (upperStr pfx)) fields 0

mutual
/-- Modelled `checkRequiredField` of src/config.go (lines 219-268): walk
the fields in declaration order, short-circuiting on the first error; the
per-field dispatch is `checkFieldRequired`. -/
def checkRequiredField : List (FieldTags × GoTy) → List GoVal → Option Err
  | [], _ => none
  | _ :: _, [] => none
  | (t, ty) :: fs, v :: vs =>
      match checkFieldRequired t ty v with
      | some e => some e
      | none => checkRequiredField fs vs

/-- One field of the required-field walk: a nested struct recurses
unconditionally, a slice of structs checks every element, and any other
field fails exactly when tagged required and holding a zero value (per
`isZero`). -/
def checkFieldRequired : FieldTags → GoTy → GoVal → Option Err
  | t, ty, v =>
    match ty, v with
    | .tstruct sfs, .vstruct svs => checkRequiredField sfs svs
    | .tslice (.tstruct efs), .vslice _ elems => checkSliceRequired efs elems
    | _, _ =>
        if t.required ∧ isZero v then some (.requiredMissing (displayName t))
        else none

/-- Element loop of the required-field walk over a slice of structs. -/
def checkSliceRequired : List (FieldTags × GoTy) → List GoVal → Option Err
  | _, [] => none
  | efs, e :: rest =>
      match checkElemRequired efs e with
      | some er => some er
      | none => checkSliceRequired efs rest

/-- One element of the slice walk; non-struct elements are ignored as Go's
`checkRequiredField` ignores non-struct values. -/
def checkElemRequired : List (FieldTags × GoTy) → GoVal → Option Err
  | efs, .vstruct svs => checkRequiredField efs svs
  | _, _ => none
end

mutual
/-- All required-field violations of a record, in the depth-first,
declaration-order traversal of `checkRequiredField`, collected instead of
short-circuited; used to state that the checker reports exactly the first
one. -/
def requiredViolations : List (FieldTags × GoTy) → List GoVal → List String
  | [], _ => []
  | _ :: _, [] => []
  | (t, ty) :: fs, v :: vs =>
      fieldViolations t ty v ++ requiredViolations fs vs

/-- Violations contributed by one field. -/
def fieldViolations : FieldTags → GoTy → GoVal → List String
  | t, ty, v =>
    match ty, v with
    | .tstruct sfs, .vstruct svs => requiredViolations sfs svs
    | .tslice (.tstruct efs), .vslice _ elems => sliceViolations efs elems
    | _, _ =>
        if t.required ∧ isZero v then [displayName t] else []

/-- Violations contributed by the elements of a slice of structs. -/
def sliceViolations : List (FieldTags × GoTy) → List GoVal → List String
  | _, [] => []
  | efs, e :: rest =>
      elemViolations efs e ++ sliceViolations efs rest

/-- Violations contributed by one slice element. -/
def elemViolations : List (FieldTags × GoTy) → GoVal → List String
  | efs, .vstruct svs => requiredViolations efs svs
  | _, _ => []
end

/-- Generic runtime values as seen by `maskSecrets`, whose argument and
result are `interface{}`: a struct value (whose type supplies the field
tags), a slice, the generic `map[string]interface{}` it builds, and scalar
leaves.  Pointers are dereferenced before the dispatch and are elided. -/
inductive DVal where
  | dstr (s : String)
  | dint (n : Int)
  | dbool (b : Bool)
  | dfloat (x : GoFlt)
  | dslice (elems : List DVal)
  | dstruct (fields : List (FieldTags × DVal))
  | dmap (entries : List (String × DVal))

/-- Whether a value dispatches to the recursive branch of `maskSecrets`
(`field.Kind() == reflect.Struct || field.Kind() == reflect.Slice`). -/
def isStructOrSlice : DVal → Bool
  | .dstruct _ => true
  | .dslice _ => true
  | _ => false

mutual
/-- Modelled `maskSecrets` of src/config.go (lines 675-717): a struct
becomes a map from field name to masked entry, a slice maps the transform
over its elements, and every other value — including the maps the transform
itself produces, which fall into the default branch — is returned
unchanged. -/
def maskSecrets : DVal → DVal
  | .dstruct fs => .dmap (maskSecretsFields fs)
  | .dslice es => .dslice (maskSecretsList es)
  | v => v

/-- The per-field body of `maskSecrets` over a struct: struct- or
slice-valued fields recurse; other fields are replaced by the mask token
when tagged secret and passed through unchanged otherwise. -/
def maskSecretsFields : List (FieldTags × DVal) → List (String × DVal)
  | [] => []
  | (t, v) :: r =>
      (t.name,
        if isStructOrSlice v then maskSecrets v
        else if t.secret then .dstr ("****") else v) :: maskSecretsFields r

/-- Element-wise masking of a slice. -/
def maskSecretsList : List DVal → List DVal
  | [] => []
  | v :: r => maskSecrets v :: maskSecretsList r
end

/-- The masked value of one struct field, as bound by `maskSecretsFields`:
struct- or slice-valued fields recurse into `maskSecrets`; any other field
is replaced by the fixed mask token when tagged secret and passed through
unchanged otherwise. -/
def maskEntry (t : FieldTags) (v : DVal) : DVal :=
  if isStructOrSlice v then maskSecrets v
  else if t.secret then .dstr ("****") else v

/-- Outcome of the file step of `loadConfigFile` (src/config.go lines
173-217).  Path resolution and TOML decoding are external I/O and are
abstracted: the file may be absent (os.Stat reports not-exist, which the
function treats as success without touching the record), it may exist but
fail to load or decode (toml.LoadFile / tree.Unmarshal return an error), or
it may decode into field values for the target record. -/
inductive FileOutcome where
  | absent
  | decodeFailed
  | loaded (vals : List GoVal)

/-- Modelled `loadConfigFile`: the record paired with the returned error.
An absent file returns nil with the record untouched; a decode failure
returns the error (the record is modelled untouched, matching a failure of
`toml.LoadFile` before any unmarshalling); a successful decode replaces the
record with the file's values. -/
def loadConfigFile (fo : FileOutcome) (cfg : List GoVal) : List GoVal × Option Err :=
  match fo with
  | .absent => (cfg, none)
  | .decodeFailed => (cfg, some .fileDecode)
  | .loaded fvals => (fvals, none)

/-- Modelled `loadConfigEnv`: dereference the pointer and run
`loadStructEnv` with the application name as prefix (non-struct targets
are ignored by the source and are not modelled). -/
def loadConfigEnv (fuel : Nat) (env : Env) (appName : String)
    (fields : List (FieldTags × GoTy)) (vals : List GoVal) : PRes (List GoVal) :=
  loadStructEnv fuel env appName fields vals

/-- The process-wide singleton `instance`, carrying the record type it was
stored at (the `*T` of the type assertion in GetConfig/GetConfigSafe). -/
structure Inst where
  ty : List (FieldTags × GoTy)
  vals : List GoVal

/-- Modelled `LoadConfig` of src/config.go (lines 143-171): run the file
step and log-and-ignore its error; run the environment pass on the same
record and log-and-ignore its returned error (keeping the partially
updated record) while a panic propagates; validate required fields; only
on successful validation install the record as the singleton instance. -/
def LoadConfig (fuel : Nat) (fo : FileOutcome) (env : Env) (appName : String)
    (fields : List (FieldTags × GoTy)) (inst : Option Inst) : Res Unit × Option Inst :=
  let cfg0 := zeroFields fields
  let fileStep := loadConfigFile fo cfg0
  match loadConfigEnv fuel env appName fields fileStep.1 with
  | .panic m => (.panic m, inst)
  | .div => (.div, inst)
  | .ok cfg2 =>
      (match checkRequiredField fields cfg2 with
       | some e => (.err e, inst)
       | none => (.ok (), some ⟨fields, cfg2⟩))
  | .err cfg2 _e =>
      (match checkRequiredField fields cfg2 with
       | some e => (.err e, inst)
       | none => (.ok (), some ⟨fields, cfg2⟩))

/-- Modelled `GetConfig`: panics when no configuration was installed or the
requested type differs from the stored one. -/
def GetConfig (wanted : List (FieldTags × GoTy)) (inst : Option Inst) : Res (List GoVal) :=
  match inst with
  | none => .panic ("Config not initialized. Call InitConfig first.")
  | some i => if beqFields i.ty wanted then .ok i.vals else .panic ("Invalid config type")

/-- Modelled `GetConfigSafe`: the error-returning variant of `GetConfig`. -/
def GetConfigSafe (wanted : List (FieldTags × GoTy)) (inst : Option Inst) :
    Except Err (List GoVal) :=
  match inst with
  | none => .error .notInitialized
  | some i => if beqFields i.ty wanted then .ok i.vals else .error .typeMismatch

/-- The scalar kinds of the specification's data model (string, integer,
boolean, float): exactly those for which the dynamic value produced by
`parseEnvValue` matches the field's type. -/
def specScalar : GoTy → Bool
  | .tstring | .tint | .tbool | .tfloat64 => true
  | _ => false

/-- A scalar or list-of-scalar field type in the sense of the
specification's data model. -/
def envScalarTy : GoTy → Bool
  | .tslice e => specScalar e
  | ty => specScalar ty

/-- The sized Go integer kinds, declared distinct from the platform `int`. -/
def sizedInt : GoTy → Bool
  | .tint8 | .tint16 | .tint32 | .tint64 => true
  | _ => false

/-- One optional string field Host, tag HOST (example record type). -/
def cfgHost : List (FieldTags × GoTy) :=
  [(⟨"Host", "HOST", "", false, false⟩, .tstring)]

/-- One required string field Host, tag HOST (example record type). -/
def cfgReqHost : List (FieldTags × GoTy) :=
  [(⟨"Host", "HOST", "", true, false⟩, .tstring)]

/-- One optional int field Port, tag PORT (example record type). -/
def cfgPort : List (FieldTags × GoTy) :=
  [(⟨"Port", "PORT", "", false, false⟩, .tint)]

/-- One required bool field Debug, tag DEBUG (example record type). -/
def cfgReqBool : List (FieldTags × GoTy) :=
  [(⟨"Debug", "DEBUG", "", true, false⟩, .tbool)]

/-- The element type of the Users slice of the repository's TestConfig. -/
def userElemFields : List (FieldTags × GoTy) :=
  [(⟨"Name", "NAME", "", false, false⟩, .tstring),
   (⟨"Role", "ROLE", "", false, false⟩, .tstring)]

/-- The Server section of the repository's TestConfig. -/
def serverTy : GoTy := .tstruct
  [(⟨"Host", "HOST", "", true, false⟩, .tstring),
   (⟨"Port", "PORT", "8080", false, false⟩, .tint)]

/-- The Database section of the repository's TestConfig. -/
def databaseTy : GoTy := .tstruct
  [(⟨"User", "USER", "", true, false⟩, .tstring),
   (⟨"Password", "PASSWORD", "", false, true⟩, .tstring),
   (⟨"Hosts", "HOSTS", "", false, false⟩, .tslice .tstring)]

/-- The repository's TestConfig record type (config_test.go). -/
def testConfigFields : List (FieldTags × GoTy) :=
  [(⟨"Server", "SERVER", "", false, false⟩, serverTy),
   (⟨"Database", "DATABASE", "", false, false⟩, databaseTy),
   (⟨"Users", "USERS", "", false, false⟩, .tslice (.tstruct userElemFields)),
   (⟨"Enabled", "ENABLED", "", false, false⟩, .tbool)]

/-- The TOML values of the hybrid-loading test of the repository. -/
def tomlVals : List GoVal :=
  [.vstruct [.vstring ("tomlhost"), .vint 8000],
   .vstruct [.vstring ("tomluser"), .vstring ("tomlpassword"),
             .vslice .tstring [.vstring ("tomldb1"), .vstring ("tomldb2")]],
   .vslice (.tstruct userElemFields)
     [.vstruct [.vstring ("TomlAlice"), .vstring ("toml_admin")],
      .vstruct [.vstring ("TomlBob"), .vstring ("toml_user")]],
   .vbool true]

/-- The environment of the hybrid-loading test of the repository. -/
def hybridEnv : Env :=
  [("HYBRIDAPP_SERVER_HOST", "envhost"),
   ("HYBRIDAPP_DATABASE_PASSWORD", "envpassword"),
   ("HYBRIDAPP_USERS_0_NAME", "EnvAlice"),
   ("HYBRIDAPP_USERS_0_ROLE", "env_admin"),
   ("HYBRIDAPP_USERS_1_NAME", "EnvBob"),
   ("HYBRIDAPP_USERS_1_ROLE", "env_user")]

mutual
/-- Type equality is reflexive. -/
theorem GoTy.beq_self : (t : GoTy) → GoTy.beq t t = true
  | .tstring | .tint | .tint8 | .tint16 | .tint32 | .tint64
  | .tbool | .tfloat64 | .tfloat32 => rfl
  | .tslice a => by simp [GoTy.beq, GoTy.beq_self a]
  | .tstruct fs => by simp [GoTy.beq, beqFields_self fs]

/-- Field-list type equality is reflexive. -/
theorem beqFields_self : (fs : List (FieldTags × GoTy)) → beqFields fs fs = true
  | [] => rfl
  | (t, a) :: fs => by simp [beqFields, GoTy.beq_self a, beqFields_self fs]
end

/-- A successful `parseSliceValue` yields a slice of exactly the target
element type. -/
theorem parseSliceValue_ok_shape (pe : String → Res GoVal) (ety : GoTy) (s : String)
    (d : GoVal) (h : parseSliceValue pe ety s = .ok d) :
    ∃ l, d = .vslice ety l := by
  simp only [parseSliceValue] at h
  cases hps : parseSliceElems pe ety (((splitComma s).map trimGo).filter (fun x => x != "")) with
  | ok l => rw [hps] at h; exact ⟨l, by cases h; rfl⟩
  | err e => rw [hps] at h; cases h
  | panic m => rw [hps] at h; cases h
  | div => rw [hps] at h; cases h

/-- For the specification's scalar and list-of-scalar kinds, a value
produced by `parseEnvValue` has the dynamic type of the field, so
`reflect.Value.Set` assigns it without panicking. -/
theorem assign_parse_ok (ty : GoTy) (s : String) (d : GoVal)
    (hty : envScalarTy ty = true) (hp : parseEnvValue ty s = .ok d) :
    assign ty d = some d := by
  cases ty with
  | tstring =>
      by_cases hs : s = "" <;> simp [parseEnvValue, hs, getZeroValue] at hp <;>
        simp [← hp, assign]
  | tint =>
      by_cases hs : s = "" <;> simp [parseEnvValue, hs, getZeroValue] at hp
      · simp [← hp, assign]
      · cases hpi : parseGoInt s <;> rw [hpi] at hp <;> simp at hp <;> simp [← hp, assign]
  | tbool =>
      by_cases hs : s = "" <;> simp [parseEnvValue, hs, getZeroValue] at hp
      · simp [← hp, assign]
      · cases hpb : parseGoBool s <;> rw [hpb] at hp <;> simp at hp <;> simp [← hp, assign]
  | tfloat64 =>
      by_cases hs : s = "" <;> simp [parseEnvValue, hs, getZeroValue] at hp
      · simp [← hp, assign]
      · cases hpf : parseGoFloat s <;> rw [hpf] at hp <;> simp at hp <;> simp [← hp, assign]
  | tslice e =>
      by_cases hs : s = ""
      · simp [parseEnvValue, hs, getZeroValue] at hp
        simp [← hp, assign, GoTy.beq_self]
      · simp [parseEnvValue, hs] at hp
        obtain ⟨l, rfl⟩ := parseSliceValue_ok_shape _ _ _ _ hp
        simp [assign, GoTy.beq_self]
  | tint8 => simp [envScalarTy, specScalar] at hty
  | tint16 => simp [envScalarTy, specScalar] at hty
  | tint32 => simp [envScalarTy, specScalar] at hty
  | tint64 => simp [envScalarTy, specScalar] at hty
  | tfloat32 => simp [envScalarTy, specScalar] at hty
  | tstruct fs => simp [envScalarTy, specScalar] at hty

/-- Unfolding of one iteration of the field loop of `loadStructEnv`. -/
theorem loadStructEnv_cons (n : Nat) (env : Env) (pfx : String) (t : FieldTags)
    (ty : GoTy) (fs : List (FieldTags × GoTy)) (v : GoVal) (vs : List GoVal) :
    loadStructEnv (n + 1) env pfx ((t, ty) :: fs) (v :: vs) =
      match loadFieldEnv n env pfx t ty v with
      | .ok v' => consPRes v' (loadStructEnv n env pfx fs vs)
      | .err v' e => .err (v' :: vs) e
      | .panic m => .panic m
      | .div => .div := rfl

/-- A scalar or list-of-scalar field whose key holds a nonempty, coercible
value is overwritten with the coerced value, whatever it held before. -/
theorem loadFieldEnv_scalar_set (n : Nat) (env : Env) (pfx : String) (t : FieldTags)
    (ty : GoTy) (v : GoVal) (s : String) (d : GoVal)
    (hty : envScalarTy ty = true) (hg : getenv env (envKeyBase pfx t) = s)
    (hs : s ≠ "") (hp : parseEnvValue ty s = .ok d) :
    loadFieldEnv n env pfx t ty v = .ok d := by
  have ha := assign_parse_ok ty s d hty hp
  cases ty with
  | tstring => simp [loadFieldEnv, hg, hs, hp, ha]
  | tint => simp [loadFieldEnv, hg, hs, hp, ha]
  | tbool => simp [loadFieldEnv, hg, hs, hp, ha]
  | tfloat64 => simp [loadFieldEnv, hg, hs, hp, ha]
  | tslice e =>
      cases e with
      | tstring => simp [loadFieldEnv, hg, hs, hp, ha]
      | tint => simp [loadFieldEnv, hg, hs, hp, ha]
      | tbool => simp [loadFieldEnv, hg, hs, hp, ha]
      | tfloat64 => simp [loadFieldEnv, hg, hs, hp, ha]
      | tint8 => simp [envScalarTy, specScalar] at hty
      | tint16 => simp [envScalarTy, specScalar] at hty
      | tint32 => simp [envScalarTy, specScalar] at hty
      | tint64 => simp [envScalarTy, specScalar] at hty
      | tfloat32 => simp [envScalarTy, specScalar] at hty
      | tslice e2 => simp [envScalarTy, specScalar] at hty
      | tstruct efs => simp [envScalarTy, specScalar] at hty
  | tint8 => simp [envScalarTy, specScalar] at hty
  | tint16 => simp [envScalarTy, specScalar] at hty
  | tint32 => simp [envScalarTy, specScalar] at hty
  | tint64 => simp [envScalarTy, specScalar] at hty
  | tfloat32 => simp [envScalarTy, specScalar] at hty
  | tstruct fs => simp [envScalarTy, specScalar] at hty

/-- A scalar or list-of-scalar field whose key is unset is left untouched
when no default applies (none declared, or the field already nonzero). -/
theorem loadFieldEnv_scalar_unchanged (n : Nat) (env : Env) (pfx : String) (t : FieldTags)
    (ty : GoTy) (v : GoVal)
    (hty : envScalarTy ty = true) (hg : getenv env (envKeyBase pfx t) = "")
    (hcond : t.defaultValue = "" ∨ isZero v = false) :
    loadFieldEnv n env pfx t ty v = .ok v := by
  cases ty with
  | tstring => rcases hcond with h | h <;> simp [loadFieldEnv, hg, h]
  | tint => rcases hcond with h | h <;> simp [loadFieldEnv, hg, h]
  | tbool => rcases hcond with h | h <;> simp [loadFieldEnv, hg, h]
  | tfloat64 => rcases hcond with h | h <;> simp [loadFieldEnv, hg, h]
  | tslice e =>
      cases e with
      | tstring => rcases hcond with h | h <;> simp [loadFieldEnv, hg, h]
      | tint => rcases hcond with h | h <;> simp [loadFieldEnv, hg, h]
      | tbool => rcases hcond with h | h <;> simp [loadFieldEnv, hg, h]
      | tfloat64 => rcases hcond with h | h <;> simp [loadFieldEnv, hg, h]
      | tint8 => simp [envScalarTy, specScalar] at hty
      | tint16 => simp [envScalarTy, specScalar] at hty
      | tint32 => simp [envScalarTy, specScalar] at hty
      | tint64 => simp [envScalarTy, specScalar] at hty
      | tfloat32 => simp [envScalarTy, specScalar] at hty
      | tslice e2 => simp [envScalarTy, specScalar] at hty
      | tstruct efs => simp [envScalarTy, specScalar] at hty
  | tint8 => simp [envScalarTy, specScalar] at hty
  | tint16 => simp [envScalarTy, specScalar] at hty
  | tint32 => simp [envScalarTy, specScalar] at hty
  | tint64 => simp [envScalarTy, specScalar] at hty
  | tfloat32 => simp [envScalarTy, specScalar] at hty
  | tstruct fs => simp [envScalarTy, specScalar] at hty

/-- A scalar or list-of-scalar field with an unset key, a zero current
value, and a declared, coercible default receives the coerced default. -/
theorem loadFieldEnv_scalar_default (n : Nat) (env : Env) (pfx : String) (t : FieldTags)
    (ty : GoTy) (v : GoVal) (d : GoVal)
    (hty : envScalarTy ty = true) (hg : getenv env (envKeyBase pfx t) = "")
    (hd : t.defaultValue ≠ "") (hz : isZero v = true)
    (hp : parseEnvValue ty t.defaultValue = .ok d) :
    loadFieldEnv n env pfx t ty v = .ok d := by
  have ha := assign_parse_ok ty t.defaultValue d hty hp
  cases ty with
  | tstring => simp [loadFieldEnv, hg, hd, hz, hp, ha]
  | tint => simp [loadFieldEnv, hg, hd, hz, hp, ha]
  | tbool => simp [loadFieldEnv, hg, hd, hz, hp, ha]
  | tfloat64 => simp [loadFieldEnv, hg, hd, hz, hp, ha]
  | tslice e =>
      cases e with
      | tstring => simp [loadFieldEnv, hg, hd, hz, hp, ha]
      | tint => simp [loadFieldEnv, hg, hd, hz, hp, ha]
      | tbool => simp [loadFieldEnv, hg, hd, hz, hp, ha]
      | tfloat64 => simp [loadFieldEnv, hg, hd, hz, hp, ha]
      | tint8 => simp [envScalarTy, specScalar] at hty
      | tint16 => simp [envScalarTy, specScalar] at hty
      | tint32 => simp [envScalarTy, specScalar] at hty
      | tint64 => simp [envScalarTy, specScalar] at hty
      | tfloat32 => simp [envScalarTy, specScalar] at hty
      | tslice e2 => simp [envScalarTy, specScalar] at hty
      | tstruct efs => simp [envScalarTy, specScalar] at hty
  | tint8 => simp [envScalarTy, specScalar] at hty
  | tint16 => simp [envScalarTy, specScalar] at hty
  | tint32 => simp [envScalarTy, specScalar] at hty
  | tint64 => simp [envScalarTy, specScalar] at hty
  | tfloat32 => simp [envScalarTy, specScalar] at hty
  | tstruct fs => simp [envScalarTy, specScalar] at hty

mutual
/-- The required-field checker returns exactly the first violation of the
depth-first, declaration-order traversal. -/
theorem checkRequiredField_eq : (fs : List (FieldTags × GoTy)) → (vs : List GoVal) →
    checkRequiredField fs vs = (requiredViolations fs vs).head?.map Err.requiredMissing
  | [], vs => by simp [checkRequiredField, requiredViolations]
  | _ :: _, [] => by simp [checkRequiredField, requiredViolations]
  | (t, ty) :: fs, v :: vs => by
      rw [checkRequiredField, requiredViolations,
        checkFieldRequired_eq t ty v, checkRequiredField_eq fs vs]
      cases hfv : fieldViolations t ty v with
      | nil => simp
      | cons x xs => simp

/-- Per-field version of `checkRequiredField_eq`. -/
theorem checkFieldRequired_eq (t : FieldTags) (ty : GoTy) (v : GoVal) :
    checkFieldRequired t ty v = (fieldViolations t ty v).head?.map Err.requiredMissing := by
  cases ty with
  | tstruct sfs =>
      cases v <;>
        first
          | exact checkRequiredField_eq _ _
          | (simp only [checkFieldRequired, fieldViolations]; split <;> rfl)
  | tslice e =>
      cases e <;> cases v <;>
        first
          | exact checkSliceRequired_eq _ _
          | (simp only [checkFieldRequired, fieldViolations]; split <;> rfl)
  | tstring =>
      cases v <;> (simp only [checkFieldRequired, fieldViolations]; split <;> rfl)
  | tint =>
      cases v <;> (simp only [checkFieldRequired, fieldViolations]; split <;> rfl)
  | tint8 =>
      cases v <;> (simp only [checkFieldRequired, fieldViolations]; split <;> rfl)
  | tint16 =>
      cases v <;> (simp only [checkFieldRequired, fieldViolations]; split <;> rfl)
  | tint32 =>
      cases v <;> (simp only [checkFieldRequired, fieldViolations]; split <;> rfl)
  | tint64 =>
      cases v <;> (simp only [checkFieldRequired, fieldViolations]; split <;> rfl)
  | tbool =>
      cases v <;> (simp only [checkFieldRequired, fieldViolations]; split <;> rfl)
  | tfloat64 =>
      cases v <;> (simp only [checkFieldRequired, fieldViolations]; split <;> rfl)
  | tfloat32 =>
      cases v <;> (simp only [checkFieldRequired, fieldViolations]; split <;> rfl)

/-- Per-slice version of `checkRequiredField_eq`. -/
theorem checkSliceRequired_eq : (efs : List (FieldTags × GoTy)) → (es : List GoVal) →
    checkSliceRequired efs es = (sliceViolations efs es).head?.map Err.requiredMissing
  | _, [] => by simp [checkSliceRequired, sliceViolations]
  | efs, e :: rest => by
      rw [checkSliceRequired, sliceViolations,
        checkElemRequired_eq efs e, checkSliceRequired_eq efs rest]
      cases hfv : elemViolations efs e with
      | nil => simp
      | cons x xs => simp

/-- Per-element version of `checkRequiredField_eq`. -/
theorem checkElemRequired_eq (efs : List (FieldTags × GoTy)) (e : GoVal) :
    checkElemRequired efs e = (elemViolations efs e).head?.map Err.requiredMissing := by
  cases e <;>
    first
      | exact checkRequiredField_eq _ _
      | rfl
end

/-- Every error the required-field checker produces is a
`requiredMissing`. -/
theorem checkRequiredField_err_shape (fs : List (FieldTags × GoTy)) (vs : List GoVal)
    (e : Err) (h : checkRequiredField fs vs = some e) : ∃ tag, e = .requiredMissing tag := by
  rw [checkRequiredField_eq fs vs] at h
  cases hh : (requiredViolations fs vs).head? with
  | none => rw [hh] at h; cases h
  | some tag => rw [hh] at h; exact ⟨tag, by cases h; rfl⟩

mutual
/-- Masking is literally idempotent: its output consists of generic maps,
slices and scalars, and maps and scalars fall into the identity branch
while slices recurse into already-masked elements. -/
theorem maskSecrets_idem : (v : DVal) → maskSecrets (maskSecrets v) = maskSecrets v
  | .dstr _ => rfl
  | .dint _ => rfl
  | .dbool _ => rfl
  | .dfloat _ => rfl
  | .dmap _ => rfl
  | .dslice es => by simp [maskSecrets, maskSecretsList_idem es]
  | .dstruct fs => by simp [maskSecrets]

/-- Element-wise idempotence of masking over lists. -/
theorem maskSecretsList_idem : (es : List DVal) → maskSecretsList (maskSecretsList es) = maskSecretsList es
  | [] => rfl
  | v :: r => by simp [maskSecretsList, maskSecrets_idem v, maskSecretsList_idem r]
end

/-- Masking a struct preserves the number of fields. -/
theorem maskSecretsFields_length : (fs : List (FieldTags × DVal)) →
    (maskSecretsFields fs).length = fs.length
  | [] => rfl
  | (t, v) :: r => by simp [maskSecretsFields, maskSecretsFields_length r]

/-- Masking a slice preserves the number of elements. -/
theorem maskSecretsList_length : (es : List DVal) →
    (maskSecretsList es).length = es.length
  | [] => rfl
  | v :: r => by simp [maskSecretsList, maskSecretsList_length r]

/-- Positionally, the masked struct binds the original field name to the
masked entry of the original child. -/
theorem maskSecretsFields_getD (fs : List (FieldTags × DVal)) (i : Nat) :
    (maskSecretsFields fs).getD i (("", .dstr "")) =
      ((fs.getD i (⟨"", "", "", false, false⟩, .dstr "")).1.name,
       maskEntry (fs.getD i (⟨"", "", "", false, false⟩, .dstr "")).1
         (fs.getD i (⟨"", "", "", false, false⟩, .dstr "")).2) := by
  induction fs generalizing i with
  | nil => cases i <;> simp [maskSecretsFields, maskEntry, isStructOrSlice]
  | cons p r ih =>
      obtain ⟨t, v⟩ := p
      cases i with
      | zero => simp [maskSecretsFields, maskEntry]
      | succ j => simpa [maskSecretsFields] using ih j

/-- A load whose outcome is a returned error leaves the singleton instance
exactly as it was. -/
theorem LoadConfig_err_keeps (fuel : Nat) (fo : FileOutcome) (env : Env) (app : String)
    (fields : List (FieldTags × GoTy)) (inst : Option Inst) (e : Err)
    (h : (LoadConfig fuel fo env app fields inst).1 = .err e) :
    (LoadConfig fuel fo env app fields inst).2 = inst := by
  simp only [LoadConfig] at h ⊢
  cases henv : loadConfigEnv fuel env app fields (loadConfigFile fo (zeroFields fields)).1 with
  | ok cfg2 =>
      rw [henv] at h
      cases hc : checkRequiredField fields cfg2 with
      | none => simp [hc] at h
      | some e0 => simp [hc]
  | err cfg2 e1 =>
      rw [henv] at h
      cases hc : checkRequiredField fields cfg2 with
      | none => simp [hc] at h
      | some e0 => simp [hc]
  | panic m => rfl
  | div => rfl

/-- Every error `LoadConfig` returns is a missing-required-field error:
file decode errors and environment coercion errors are logged and
swallowed, never surfaced. -/
theorem LoadConfig_err_shape (fuel : Nat) (fo : FileOutcome) (env : Env) (app : String)
    (fields : List (FieldTags × GoTy)) (inst : Option Inst) (e : Err)
    (h : (LoadConfig fuel fo env app fields inst).1 = .err e) :
    ∃ tag, e = .requiredMissing tag := by
  simp only [LoadConfig] at h
  cases henv : loadConfigEnv fuel env app fields (loadConfigFile fo (zeroFields fields)).1 with
  | ok cfg2 =>
      rw [henv] at h
      cases hc : checkRequiredField fields cfg2 with
      | none => simp [hc] at h
      | some e0 =>
          simp [hc] at h
          subst h
          exact checkRequiredField_err_shape fields cfg2 e0 hc
  | err cfg2 e1 =>
      rw [henv] at h
      cases hc : checkRequiredField fields cfg2 with
      | none => simp [hc] at h
      | some e0 =>
          simp [hc] at h
          subst h
          exact checkRequiredField_err_shape fields cfg2 e0 hc
  | panic m => rw [henv] at h; simp at h
  | div => rw [henv] at h; simp at h

/-- A scalar or list-of-scalar field whose key holds a nonempty value that
fails to coerce makes the environment pass return the wrapping error that
names the field and carries the offending raw value; the field keeps its
previous value. -/
theorem loadFieldEnv_scalar_err (n : Nat) (env : Env) (pfx : String) (t : FieldTags)
    (ty : GoTy) (v : GoVal) (s : String) (pe : Err)
    (hty : envScalarTy ty = true) (hg : getenv env (envKeyBase pfx t) = s)
    (hs : s ≠ "") (hp : parseEnvValue ty s = .err pe) :
    loadFieldEnv n env pfx t ty v = .err v (.fieldParse t.name pe) := by
  cases ty with
  | tstring => simp [loadFieldEnv, hg, hs, hp]
  | tint => simp [loadFieldEnv, hg, hs, hp]
  | tbool => simp [loadFieldEnv, hg, hs, hp]
  | tfloat64 => simp [loadFieldEnv, hg, hs, hp]
  | tslice e =>
      cases e with
      | tstring => simp [loadFieldEnv, hg, hs, hp]
      | tint => simp [loadFieldEnv, hg, hs, hp]
      | tbool => simp [loadFieldEnv, hg, hs, hp]
      | tfloat64 => simp [loadFieldEnv, hg, hs, hp]
      | tint8 => simp [envScalarTy, specScalar] at hty
      | tint16 => simp [envScalarTy, specScalar] at hty
      | tint32 => simp [envScalarTy, specScalar] at hty
      | tint64 => simp [envScalarTy, specScalar] at hty
      | tfloat32 => simp [envScalarTy, specScalar] at hty
      | tslice e2 => simp [envScalarTy, specScalar] at hty
      | tstruct efs => simp [envScalarTy, specScalar] at hty
  | tint8 => simp [envScalarTy, specScalar] at hty
  | tint16 => simp [envScalarTy, specScalar] at hty
  | tint32 => simp [envScalarTy, specScalar] at hty
  | tint64 => simp [envScalarTy, specScalar] at hty
  | tfloat32 => simp [envScalarTy, specScalar] at hty
  | tstruct fs => simp [envScalarTy, specScalar] at hty

/-- A sized-integer field whose key holds a value that `strconv.Atoi`
accepts makes the environment loader panic: the parsed value has dynamic
type `int`, which `reflect.Value.Set` cannot store into int8/16/32/64. -/
theorem loadFieldEnv_sizedInt_panic (n : Nat) (env : Env) (pfx : String) (t : FieldTags)
    (ty : GoTy) (v : GoVal) (s : String) (k : Int)
    (hty : sizedInt ty = true) (hg : getenv env (envKeyBase pfx t) = s)
    (hs : s ≠ "") (hk : parseGoInt s = some k) :
    loadFieldEnv n env pfx t ty v = .panic ("reflect.Set: type mismatch") := by
  cases ty with
  | tint8 => simp [loadFieldEnv, hg, hs, parseEnvValue, hk, assign]
  | tint16 => simp [loadFieldEnv, hg, hs, parseEnvValue, hk, assign]
  | tint32 => simp [loadFieldEnv, hg, hs, parseEnvValue, hk, assign]
  | tint64 => simp [loadFieldEnv, hg, hs, parseEnvValue, hk, assign]
  | tstring => simp [sizedInt] at hty
  | tint => simp [sizedInt] at hty
  | tbool => simp [sizedInt] at hty
  | tfloat64 => simp [sizedInt] at hty
  | tfloat32 => simp [sizedInt] at hty
  | tslice e => simp [sizedInt] at hty
  | tstruct fs => simp [sizedInt] at hty

/-- A float32 field whose key holds a value that `strconv.ParseFloat`
accepts makes the environment loader panic: the parsed value has dynamic
type `float64`. -/
theorem loadFieldEnv_float32_panic (n : Nat) (env : Env) (pfx : String) (t : FieldTags)
    (v : GoVal) (s : String) (x : GoFlt)
    (hg : getenv env (envKeyBase pfx t) = s) (hs : s ≠ "")
    (hx : parseGoFloat s = some x) :
    loadFieldEnv n env pfx t .tfloat32 v = .panic ("reflect.Set: type mismatch") := by
  simp [loadFieldEnv, hg, hs, parseEnvValue, hx, assign]

/-- Claim C1 (amended): a configuration file that exists but fails to
decode does not abort the load.  LoadConfig logs and discards the file
step's error and proceeds exactly as if the file were absent, on a
zero-valued base record; file absence itself is silently tolerated, the
file loader returning the record untouched with no error, while a decode
failure returns the error that LoadConfig then swallows. -/
theorem c1_decode_error_swallowed (fuel : Nat) (env : Env) (app : String)
    (fields : List (FieldTags × GoTy)) (inst : Option Inst) (cfg : List GoVal) :
    LoadConfig fuel .decodeFailed env app fields inst =
      LoadConfig fuel .absent env app fields inst ∧
    loadConfigFile .absent cfg = (cfg, none) ∧
    loadConfigFile .decodeFailed cfg = (cfg, some .fileDecode) :=
  ⟨rfl, rfl, rfl⟩

/-- Claim C1 counterexample: with the file present but failing to decode
(and nothing else configured), LoadConfig returns no error at all and
installs the zero record — refuting the claimed fatal decode error that
should abort the load. -/
theorem c1_counterexample :
    LoadConfig 10 .decodeFailed [] ("myapp") cfgHost none =
      (.ok (), some ⟨cfgHost, [.vstring ""]⟩) := by rfl

/-- Claim C2 (amended): the current `LoadConfig` never consults the
`<APPNAME>_CONFIG_TYPE` variable: even with it set (to "env" or anything
else), the file step still runs and a file-loaded value with no
environment override survives into the installed record — loading is
always hybrid file-then-environment. -/
theorem c2_config_type_ignored (n : Nat) (ct s : String) (env0 : Env) (inst : Option Inst)
    (h : getenv (("MYAPP_CONFIG_TYPE", ct) :: env0) ("MYAPP_HOST") = "") :
    LoadConfig (n + 1) (.loaded [.vstring s]) (("MYAPP_CONFIG_TYPE", ct) :: env0)
        ("myapp") cfgHost inst = (.ok (), some ⟨cfgHost, [.vstring s]⟩) := by
  have hkey : envKeyBase ("myapp") (⟨"Host", "HOST", "", false, false⟩ : FieldTags) =
      "MYAPP_HOST" := rfl
  have hg : getenv (("MYAPP_CONFIG_TYPE", ct) :: env0)
      (envKeyBase ("myapp") ⟨"Host", "HOST", "", false, false⟩) = "" := by
    rw [hkey]; exact h
  have hf := loadFieldEnv_scalar_unchanged n (("MYAPP_CONFIG_TYPE", ct) :: env0) ("myapp")
      ⟨"Host", "HOST", "", false, false⟩ .tstring (.vstring s) rfl hg (Or.inl rfl)
  simp only [LoadConfig, loadConfigEnv, loadConfigFile, cfgHost, loadStructEnv_cons, hf]
  simp [loadStructEnv, consPRes, checkRequiredField, checkFieldRequired]

/-- Claim C2 witness: with CONFIG_TYPE set to "env" and nothing else in
the environment, the file-decoded value is installed unchanged. -/
theorem c2_witness :
    LoadConfig 6 (.loaded [.vstring ("filehost")]) [("MYAPP_CONFIG_TYPE", "env")]
        ("myapp") cfgHost none = (.ok (), some ⟨cfgHost, [.vstring ("filehost")]⟩) :=
  c2_config_type_ignored 5 ("env") ("filehost") [] none rfl

/-- Claim C2 counterexample: with `MYAPP_CONFIG_TYPE=env` set and a file
that decodes to Host="fromfile", LoadConfig installs the file's value —
the file-loader step was not skipped, so the record is not populated from
environment variables only (which would have left Host empty). -/
theorem c2_counterexample :
    LoadConfig 10 (.loaded [.vstring ("fromfile")]) [("MYAPP_CONFIG_TYPE", "env")]
        ("myapp") cfgHost none = (.ok (), some ⟨cfgHost, [.vstring ("fromfile")]⟩) ∧
    [GoVal.vstring ("fromfile")] ≠ [GoVal.vstring ""] := by
  refine ⟨by rfl, ?_⟩
  simp

/-- Claim C3: for a scalar or list-of-scalar field (in the spec's data
model), a nonempty environment value is coerced and overwrites whatever
the file pass set, and an absent environment value (with no applicable
default: none declared, or the field already nonzero) leaves the value
from the file pass untouched; in both cases the remaining fields are
processed independently. -/
theorem c3_env_overrides_file (n : Nat) (env : Env) (pfx : String) (t : FieldTags)
    (ty : GoTy) (fs : List (FieldTags × GoTy)) (v : GoVal) (vs : List GoVal)
    (s : String) (d : GoVal) :
    (envScalarTy ty = true → getenv env (envKeyBase pfx t) = s → s ≠ "" →
      parseEnvValue ty s = .ok d →
      loadStructEnv (n + 1) env pfx ((t, ty) :: fs) (v :: vs) =
        consPRes d (loadStructEnv n env pfx fs vs)) ∧
    (envScalarTy ty = true → getenv env (envKeyBase pfx t) = "" →
      (t.defaultValue = "" ∨ isZero v = false) →
      loadStructEnv (n + 1) env pfx ((t, ty) :: fs) (v :: vs) =
        consPRes v (loadStructEnv n env pfx fs vs)) := by
  constructor
  · intro hty hg hs hp
    rw [loadStructEnv_cons, loadFieldEnv_scalar_set n env pfx t ty v s d hty hg hs hp]
  · intro hty hg hcond
    rw [loadStructEnv_cons, loadFieldEnv_scalar_unchanged n env pfx t ty v hty hg hcond]

/-- Claim C3 witness: a nonempty PORT overrides the file's 8000 with 9090,
and an empty environment leaves 8000 untouched. -/
theorem c3_witness :
    loadStructEnv 1 [("MYAPP_PORT", "9090")] ("myapp")
        [(⟨"Port", "PORT", "", false, false⟩, .tint)] [.vint 8000] = .ok [.vint 9090] ∧
    loadStructEnv 1 [] ("myapp")
        [(⟨"Port", "PORT", "", false, false⟩, .tint)] [.vint 8000] = .ok [.vint 8000] := by
  have h1 := (c3_env_overrides_file 0 [("MYAPP_PORT", "9090")] ("myapp")
      ⟨"Port", "PORT", "", false, false⟩ .tint [] (.vint 8000) [] ("9090") (.vint 9090)).1
      rfl rfl (by decide) rfl
  have h2 := (c3_env_overrides_file 0 [] ("myapp")
      ⟨"Port", "PORT", "", false, false⟩ .tint [] (.vint 8000) [] ("") (.vint 0)).2
      rfl rfl (Or.inl rfl)
  exact ⟨by rw [h1]; rfl, by rw [h2]; rfl⟩

/-- Claim C4 (amended): an environment value that cannot be converted to
the field's type aborts only the environment pass, which returns an error
naming the field and carrying the offending raw value; LoadConfig logs and
swallows that error, and the only errors LoadConfig ever returns are
missing-required-field errors. -/
theorem c4_coercion_error_confined (fuel n : Nat) (fo : FileOutcome) (env : Env)
    (app pfx : String) (fields fs : List (FieldTags × GoTy)) (inst : Option Inst)
    (e pe : Err) (t : FieldTags) (ty : GoTy) (v : GoVal) (vs : List GoVal) (s : String) :
    ((LoadConfig fuel fo env app fields inst).1 = .err e →
      ∃ tag, e = .requiredMissing tag) ∧
    (envScalarTy ty = true → getenv env (envKeyBase pfx t) = s → s ≠ "" →
      parseEnvValue ty s = .err pe →
      loadStructEnv (n + 1) env pfx ((t, ty) :: fs) (v :: vs) =
        .err (v :: vs) (.fieldParse t.name pe)) := by
  constructor
  · exact LoadConfig_err_shape fuel fo env app fields inst e
  · intro hty hg hs hp
    rw [loadStructEnv_cons, loadFieldEnv_scalar_err n env pfx t ty v s pe hty hg hs hp]

/-- Claim C4 witness: the environment pass on PORT="abc" reports the field
name and the raw value "abc". -/
theorem c4_witness :
    loadStructEnv 1 [("MYAPP_PORT", "abc")] ("myapp")
        [(⟨"Port", "PORT", "", false, false⟩, .tint)] [.vint 8000] =
      .err [.vint 8000] (.fieldParse ("Port") (.parseErr ("Atoi") ("abc"))) :=
  (c4_coercion_error_confined 1 0 .absent [("MYAPP_PORT", "abc")] ("myapp") ("myapp")
      cfgPort [] none .fileDecode (.parseErr ("Atoi") ("abc"))
      ⟨"Port", "PORT", "", false, false⟩ .tint (.vint 8000) [] ("abc")).2
    rfl rfl (by decide) rfl

/-- Claim C4 counterexample: with PORT="abc" in the environment and no
required fields, LoadConfig succeeds and installs the record — the whole
load does not abort on a conversion failure, refuting the claimed fatal
error. -/
theorem c4_counterexample :
    LoadConfig 10 .absent [("MYAPP_PORT", "abc")] ("myapp") cfgPort none =
      (.ok (), some ⟨cfgPort, [.vint 0]⟩) := by rfl

/-- Claim C5 (amended): after the merge, the required-field check reports
exactly the first violation of its depth-first, declaration-order
traversal, as a missing-required-field error naming the env tag (or the
identifier when no tag is declared) — where a violation is a required
field holding its zero value per the code's zero policy, under which a
boolean is never zero; a record with no violation passes. -/
theorem c5_required_first_violation (fields : List (FieldTags × GoTy))
    (vals : List GoVal) (b : Bool) :
    checkRequiredField fields vals =
      (requiredViolations fields vals).head?.map Err.requiredMissing ∧
    isZero (.vbool b) = false :=
  ⟨checkRequiredField_eq fields vals, rfl⟩

/-- Claim C5 counterexample: a required boolean field holding false — its
zero value per the spec's zero-value policy — passes validation, because
the code's `isZero` treats booleans as never zero; the claimed failure
does not occur. -/
theorem c5_counterexample :
    checkRequiredField cfgReqBool [.vbool false] = none := by rfl

/-- Claim C6: list-of-record environment probing is contiguous from index
0: an index with no observed environment activity stops the probe with
nothing kept from that index on (so a gap at index 1 truncates before a
populated index 2, as the concrete instance shows); an index with activity
keeps its element and continues; and at the field level a nonempty built
sequence replaces the file-provided list wholesale while an empty one
leaves it untouched. -/
theorem c6_slice_probe_replace (n : Nat) (env : Env) (np : String)
    (fields : List (FieldTags × GoTy)) (i : Nat) (evals : List GoVal) (pfx : String)
    (t : FieldTags) (efs fs : List (FieldTags × GoTy)) (v : GoVal) (vs : List GoVal)
    (l : List GoVal) :
    (loadSliceFields n env np i fields (zeroFields fields) false = .ok (evals, false) →
      loadStructSliceEnvAux (n + 1) env np fields i = .ok []) ∧
    (loadSliceFields n env np i fields (zeroFields fields) false = .ok (evals, true) →
      loadStructSliceEnvAux (n + 1) env np fields i =
        resCons (.vstruct evals) (loadStructSliceEnvAux n env np fields (i + 1))) ∧
    (loadStructSliceEnv n env (envKeyBase pfx t) efs = .ok l →
      (l = [] →
        loadStructEnv (n + 2) env pfx ((t, .tslice (.tstruct efs)) :: fs) (v :: vs) =
          consPRes v (loadStructEnv (n + 1) env pfx fs vs)) ∧
      (l ≠ [] →
        loadStructEnv (n + 2) env pfx ((t, .tslice (.tstruct efs)) :: fs) (v :: vs) =
          consPRes (.vslice (.tstruct efs) l) (loadStructEnv (n + 1) env pfx fs vs))) ∧
    loadStructSliceEnv 10 [("PFX_0_NAME", "a"), ("PFX_2_NAME", "c")] ("PFX")
        userElemFields = .ok [.vstruct [.vstring ("a"), .vstring ""]] := by
  have haux : loadStructSliceEnvAux (n + 1) env np fields i =
      match loadSliceFields n env np i fields (zeroFields fields) false with
      | .ok (evals, true) =>
          resCons (.vstruct evals) (loadStructSliceEnvAux n env np fields (i + 1))
      | .ok (_, false) => .ok []
      | .err e => .err e
      | .panic m => .panic m
      | .div => .div := rfl
  refine ⟨?_, ?_, ?_, by rfl⟩
  · intro h
    rw [haux, h]
  · intro h
    rw [haux, h]
  · intro hsl
    simp only [loadStructSliceEnv] at hsl
    have hfe : loadFieldEnv (n + 1) env pfx t (.tslice (.tstruct efs)) v =
        match loadStructSliceEnvAux n env (replaceDash (upperStr (envKeyBase pfx t))) efs 0 with
        | .ok l => if l.length > 0 then .ok (.vslice (.tstruct efs) l) else .ok v
        | .err e => .err v e
        | .panic msg => .panic msg
        | .div => .div := rfl
    rw [hsl] at hfe
    constructor
    · intro hl
      subst hl
      rw [loadStructEnv_cons, hfe]
      rfl
    · intro hl
      cases l with
      | nil => exact absurd rfl hl
      | cons x xs =>
          rw [loadStructEnv_cons, hfe]
          simp [consPRes]

/-- Claim C6 witness: environment elements at indices 0 and 2 with a gap
at 1 produce a single-element sequence that replaces the file-provided
two-element list. -/
theorem c6_witness :
    loadStructEnv 12 [("MYAPP_USERS_0_NAME", "A"), ("MYAPP_USERS_2_NAME", "C")] ("myapp")
        [(⟨"Users", "USERS", "", false, false⟩, .tslice (.tstruct userElemFields))]
        [.vslice (.tstruct userElemFields) [.vstruct [.vstring ("old"), .vstring ("r")]]] =
      .ok [.vslice (.tstruct userElemFields) [.vstruct [.vstring ("A"), .vstring ""]]] := by
  have h := ((c6_slice_probe_replace 10 [("MYAPP_USERS_0_NAME", "A"), ("MYAPP_USERS_2_NAME", "C")]
      ("MYAPP_USERS") userElemFields 0 [] ("myapp") ⟨"Users", "USERS", "", false, false⟩
      userElemFields [] (.vslice (.tstruct userElemFields)
        [.vstruct [.vstring ("old"), .vstring ("r")]]) []
      [.vstruct [.vstring ("A"), .vstring ""]]).2.2.1 (by rfl)).2 (by simp)
  rw [h]
  rfl

/-- Claim C7 counterexample: a boolean field Enabled with declared default
"true", absent from the environment and holding false (its zero value)
after the file pass, does NOT receive the coerced default: the guard
`isZero(value)` of src/config.go line 413 has no Bool case and returns
false for booleans, so the default is skipped and the field stays false —
while the coerced default would be true. -/
theorem c7_counterexample :
    loadStructEnv 1 [] ("myapp")
        [(⟨"Enabled", "ENABLED", "true", false, false⟩, .tbool)] [.vbool false] =
      .ok [.vbool false] ∧
    parseEnvValue .tbool ("true") = .ok (.vbool true) ∧
    (GoVal.vbool false) ≠ .vbool true := by
  refine ⟨by rfl, by rfl, ?_⟩
  simp

/-- Claim C7 (amended): a scalar or list-of-scalar field absent from the
environment whose value is zero per the code's own zero policy — under
which booleans are never zero — receives its declared, coercible default;
with no declared default it keeps that zero value; and consequently a
boolean field never receives its declared default on this path: whatever
the file pass produced is kept, default or not. -/
theorem c7_default_code_zero_policy (n : Nat) (env : Env) (pfx : String) (t : FieldTags)
    (ty : GoTy) (fs : List (FieldTags × GoTy)) (v : GoVal) (vs : List GoVal)
    (d : GoVal) (b : Bool) :
    (envScalarTy ty = true → getenv env (envKeyBase pfx t) = "" →
      t.defaultValue ≠ "" → isZero v = true → parseEnvValue ty t.defaultValue = .ok d →
      loadStructEnv (n + 1) env pfx ((t, ty) :: fs) (v :: vs) =
        consPRes d (loadStructEnv n env pfx fs vs)) ∧
    (envScalarTy ty = true → getenv env (envKeyBase pfx t) = "" →
      t.defaultValue = "" → isZero v = true →
      loadStructEnv (n + 1) env pfx ((t, ty) :: fs) (v :: vs) =
        consPRes v (loadStructEnv n env pfx fs vs)) ∧
    (getenv env (envKeyBase pfx t) = "" →
      loadStructEnv (n + 1) env pfx ((t, .tbool) :: fs) (.vbool b :: vs) =
        consPRes (.vbool b) (loadStructEnv n env pfx fs vs)) := by
  refine ⟨?_, ?_, ?_⟩
  · intro hty hg hd hz hp
    rw [loadStructEnv_cons, loadFieldEnv_scalar_default n env pfx t ty v d hty hg hd hz hp]
  · intro hty hg hd hz
    rw [loadStructEnv_cons, loadFieldEnv_scalar_unchanged n env pfx t ty v hty hg (Or.inl hd)]
  · intro hg
    rw [loadStructEnv_cons,
      loadFieldEnv_scalar_unchanged n env pfx t .tbool (.vbool b) rfl hg (Or.inr rfl)]

/-- Claim C7 witness: PORT absent with default "8080" resolves to 8080, an
identical field with no default stays at its zero value, and a boolean
field with default "true" keeps its false value. -/
theorem c7_code_zero_policy_witness :
    loadStructEnv 1 [] ("myapp")
        [(⟨"Port", "PORT", "8080", false, false⟩, .tint)] [.vint 0] = .ok [.vint 8080] ∧
    loadStructEnv 1 [] ("myapp")
        [(⟨"Port", "PORT", "", false, false⟩, .tint)] [.vint 0] = .ok [.vint 0] ∧
    loadStructEnv 1 [] ("myapp")
        [(⟨"Flag", "FLAG", "true", false, false⟩, .tbool)] [.vbool false] =
      .ok [.vbool false] := by
  have h1 := (c7_default_code_zero_policy 0 [] ("myapp")
      ⟨"Port", "PORT", "8080", false, false⟩ .tint [] (.vint 0) [] (.vint 8080) false).1
      rfl rfl (by decide) rfl rfl
  have h2 := (c7_default_code_zero_policy 0 [] ("myapp")
      ⟨"Port", "PORT", "", false, false⟩ .tint [] (.vint 0) [] (.vint 0) false).2.1
      rfl rfl rfl rfl
  have h3 := (c7_default_code_zero_policy 0 [] ("myapp")
      ⟨"Flag", "FLAG", "true", false, false⟩ .tbool [] (.vbool false) [] (.vbool false)
      false).2.2 rfl
  exact ⟨by rw [h1]; rfl, by rw [h2]; rfl, by rw [h3]; rfl⟩

/-- Claim C8: `maskSecrets` turns a record into a mapping from field name
to masked child and a list into the sequence of masked elements,
preserving length and, positionally, the field names; a secret-tagged
scalar leaf becomes the fixed token "****", every other scalar passes
through unchanged, and struct- or slice-valued children recurse; applying
the transform twice yields output identical to applying it once. -/
theorem c8_mask_shape_idempotent (v : DVal) (fs : List (FieldTags × DVal))
    (es : List DVal) (i : Nat) (t : FieldTags) (nm tg df : String) (rq : Bool)
    (s0 : String) (n0 : Int) (b0 : Bool) (x0 : GoFlt) :
    maskSecrets (maskSecrets v) = maskSecrets v ∧
    maskSecrets (.dstruct fs) = .dmap (maskSecretsFields fs) ∧
    (maskSecretsFields fs).length = fs.length ∧
    (maskSecretsFields fs).getD i (("", .dstr "")) =
      ((fs.getD i (⟨"", "", "", false, false⟩, .dstr "")).1.name,
       maskEntry (fs.getD i (⟨"", "", "", false, false⟩, .dstr "")).1
         (fs.getD i (⟨"", "", "", false, false⟩, .dstr "")).2) ∧
    maskSecrets (.dslice es) = .dslice (maskSecretsList es) ∧
    (maskSecretsList es).length = es.length ∧
    maskEntry ⟨nm, tg, df, rq, true⟩ (.dstr s0) = .dstr ("****") ∧
    maskEntry ⟨nm, tg, df, rq, true⟩ (.dint n0) = .dstr ("****") ∧
    maskEntry ⟨nm, tg, df, rq, true⟩ (.dbool b0) = .dstr ("****") ∧
    maskEntry ⟨nm, tg, df, rq, true⟩ (.dfloat x0) = .dstr ("****") ∧
    maskEntry ⟨nm, tg, df, rq, false⟩ (.dstr s0) = .dstr s0 ∧
    maskEntry ⟨nm, tg, df, rq, false⟩ (.dint n0) = .dint n0 ∧
    maskEntry ⟨nm, tg, df, rq, false⟩ (.dbool b0) = .dbool b0 ∧
    maskEntry ⟨nm, tg, df, rq, false⟩ (.dfloat x0) = .dfloat x0 ∧
    maskEntry t (.dstruct fs) = maskSecrets (.dstruct fs) ∧
    maskEntry t (.dslice es) = maskSecrets (.dslice es) :=
  ⟨maskSecrets_idem v, rfl, maskSecretsFields_length fs, maskSecretsFields_getD fs i,
   rfl, maskSecretsList_length es, rfl, rfl, rfl, rfl, rfl, rfl, rfl, rfl, rfl, rfl⟩

/-- Claim C9: a load that returns an error does not touch the singleton
instance; with no instance installed, GetConfigSafe reports the
not-initialized error (and GetConfig panics); a previously installed
instance remains retrievable unchanged at its own type through both
accessors. -/
theorem c9_failed_load_preserves_instance (fuel : Nat) (fo : FileOutcome) (env : Env)
    (app : String) (fields wanted : List (FieldTags × GoTy)) (inst : Option Inst)
    (e : Err) (i : Inst) :
    ((LoadConfig fuel fo env app fields inst).1 = .err e →
      (LoadConfig fuel fo env app fields inst).2 = inst) ∧
    GetConfigSafe wanted none = .error .notInitialized ∧
    GetConfigSafe i.ty (some i) = .ok i.vals ∧
    GetConfig wanted none = .panic ("Config not initialized. Call InitConfig first.") ∧
    GetConfig i.ty (some i) = .ok i.vals := by
  refine ⟨LoadConfig_err_keeps fuel fo env app fields inst e, rfl, ?_, rfl, ?_⟩
  · simp [GetConfigSafe, beqFields_self]
  · simp [GetConfig, beqFields_self]

/-- Claim C9 witness: a load failing on a required field leaves a
previously installed instance in place and retrievable, and with no
instance GetConfigSafe reports not-initialized. -/
theorem c9_witness :
    (LoadConfig 10 .absent [] ("myapp") cfgReqHost
        (some ⟨cfgHost, [.vstring ("old")]⟩)).2 = some ⟨cfgHost, [.vstring ("old")]⟩ ∧
    GetConfigSafe cfgHost none = .error .notInitialized ∧
    GetConfigSafe cfgHost (some ⟨cfgHost, [.vstring ("old")]⟩) = .ok [.vstring ("old")] := by
  have h := c9_failed_load_preserves_instance 10 .absent [] ("myapp") cfgReqHost cfgHost
      (some ⟨cfgHost, [.vstring ("old")]⟩) (.requiredMissing ("HOST"))
      ⟨cfgHost, [.vstring ("old")]⟩
  exact ⟨h.1 (by rfl), h.2.1, h.2.2.1⟩

/-- Claim C10 (amended): a field of sized numeric type (int8, int16,
int32, int64, or float32) whose nonempty environment value parses
successfully makes the environment loader panic with a reflect
dynamic-type mismatch, because the integer parser yields a plain `int` and
the float parser a `float64`; a value that fails to parse instead yields
the ordinary coercion error; among the numeric kinds only `int` and
`float64` fields are populated without panicking. -/
theorem c10_sized_numeric_panic (n : Nat) (env : Env) (pfx : String) (t : FieldTags)
    (ty : GoTy) (fs : List (FieldTags × GoTy)) (v : GoVal) (vs : List GoVal)
    (s : String) (k : Int) (x : GoFlt) :
    (sizedInt ty = true → getenv env (envKeyBase pfx t) = s → s ≠ "" →
      parseGoInt s = some k →
      loadStructEnv (n + 1) env pfx ((t, ty) :: fs) (v :: vs) =
        .panic ("reflect.Set: type mismatch")) ∧
    (getenv env (envKeyBase pfx t) = s → s ≠ "" → parseGoFloat s = some x →
      loadStructEnv (n + 1) env pfx ((t, .tfloat32) :: fs) (v :: vs) =
        .panic ("reflect.Set: type mismatch")) ∧
    (getenv env (envKeyBase pfx t) = s → s ≠ "" → parseGoInt s = some k →
      loadStructEnv (n + 1) env pfx ((t, .tint) :: fs) (v :: vs) =
        consPRes (.vint k) (loadStructEnv n env pfx fs vs)) ∧
    (getenv env (envKeyBase pfx t) = s → s ≠ "" → parseGoFloat s = some x →
      loadStructEnv (n + 1) env pfx ((t, .tfloat64) :: fs) (v :: vs) =
        consPRes (.vfloat64 x) (loadStructEnv n env pfx fs vs)) := by
  refine ⟨?_, ?_, ?_, ?_⟩
  · intro hty hg hs hk
    rw [loadStructEnv_cons, loadFieldEnv_sizedInt_panic n env pfx t ty v s k hty hg hs hk]
  · intro hg hs hx
    rw [loadStructEnv_cons, loadFieldEnv_float32_panic n env pfx t v s x hg hs hx]
  · intro hg hs hk
    rw [loadStructEnv_cons,
      loadFieldEnv_scalar_set n env pfx t .tint v s (.vint k) rfl hg hs
        (by simp [parseEnvValue, hs, hk])]
  · intro hg hs hx
    rw [loadStructEnv_cons,
      loadFieldEnv_scalar_set n env pfx t .tfloat64 v s (.vfloat64 x) rfl hg hs
        (by simp [parseEnvValue, hs, hx])]

/-- Claim C10 witness: an int8 field at "5" and a float32 field at "1.5"
panic; an int field at "7" and a float64 field at "2.5" are populated. -/
theorem c10_witness :
    loadStructEnv 1 [("MYAPP_A", "5")] ("myapp")
        [(⟨"A", "A", "", false, false⟩, .tint8)] [.vint8 0] =
      .panic ("reflect.Set: type mismatch") ∧
    loadStructEnv 1 [("MYAPP_A", "1.5")] ("myapp")
        [(⟨"A", "A", "", false, false⟩, .tfloat32)] [.vfloat32 ⟨0, 0⟩] =
      .panic ("reflect.Set: type mismatch") ∧
    loadStructEnv 1 [("MYAPP_A", "7")] ("myapp")
        [(⟨"A", "A", "", false, false⟩, .tint)] [.vint 0] = .ok [.vint 7] ∧
    loadStructEnv 1 [("MYAPP_A", "2.5")] ("myapp")
        [(⟨"A", "A", "", false, false⟩, .tfloat64)] [.vfloat64 ⟨0, 0⟩] =
      .ok [.vfloat64 ⟨25, 1⟩] := by
  have h1 := (c10_sized_numeric_panic 0 [("MYAPP_A", "5")] ("myapp")
      ⟨"A", "A", "", false, false⟩ .tint8 [] (.vint8 0) [] ("5") 5 ⟨0, 0⟩).1
      rfl rfl (by decide) rfl
  have h2 := (c10_sized_numeric_panic 0 [("MYAPP_A", "1.5")] ("myapp")
      ⟨"A", "A", "", false, false⟩ .tint8 [] (.vfloat32 ⟨0, 0⟩) [] ("1.5") 0 ⟨15, 1⟩).2.1
      rfl (by decide) rfl
  have h3 := (c10_sized_numeric_panic 0 [("MYAPP_A", "7")] ("myapp")
      ⟨"A", "A", "", false, false⟩ .tint8 [] (.vint 0) [] ("7") 7 ⟨0, 0⟩).2.2.1
      rfl (by decide) rfl
  have h4 := (c10_sized_numeric_panic 0 [("MYAPP_A", "2.5")] ("myapp")
      ⟨"A", "A", "", false, false⟩ .tint8 [] (.vfloat64 ⟨0, 0⟩) [] ("2.5") 0 ⟨25, 1⟩).2.2.2
      rfl (by decide) rfl
  exact ⟨h1, h2, by rw [h3]; rfl, by rw [h4]; rfl⟩

/-- Claim C10 counterexample: a nonempty environment value that does not
parse ("abc" on an int8 field) produces the ordinary coercion error, not a
panic — refuting the claim that every nonempty environment value on a
sized numeric field panics rather than returning a coercion error. -/
theorem c10_counterexample :
    loadStructEnv 1 [("MYAPP_SMALL", "abc")] ("myapp")
        [(⟨"Small", "SMALL", "", false, false⟩, .tint8)] [.vint8 0] =
      .err [.vint8 0] (.fieldParse ("Small") (.parseErr ("Atoi") ("abc"))) ∧
    (∀ m : String,
      (PRes.err [GoVal.vint8 0] (.fieldParse ("Small") (.parseErr ("Atoi") ("abc"))) :
          PRes (List GoVal)) ≠ .panic m) := by
  exact ⟨by rfl, by intro m h; cases h⟩

/-! Evaluation checks: the embedding reproduces the behaviours pinned by the repository's own tests (hybrid precedence, defaults, list-of-record loading, required-field errors). -/

example : parseEnvValue (.tslice .tint) ("1, 2,,3") =
    .ok (.vslice .tint [.vint 1, .vint 2, .vint 3]) := by rfl

example : parseEnvValue (.tslice .tint8) ("1") =
    .panic ("reflect.Append: type mismatch") := by rfl

example : parseGoInt ("-42") = some (-42) := by rfl

example : parseGoInt ("abc") = none := by rfl

example : parseGoFloat ("1.5") = some ⟨15, 1⟩ := by rfl

example : natToStr 12 = "12" := by rfl

example : upperStr ("my-app") = "MY-APP" := by rfl

example : replaceDash (upperStr ("my-app")) = "MY_APP" := by rfl

example :
    loadStructEnv 10 [("MYAPP_HOST", "envhost")] ("myapp")
      [(⟨"Host", "HOST", "", false, false⟩, .tstring)] [.vstring ("tomlhost")] =
    .ok [.vstring ("envhost")] := by rfl

example :
    loadStructEnv 10 [("MYAPP_USERS_0_NAME", "A"), ("MYAPP_USERS_2_NAME", "C")] ("myapp")
      [(⟨"Users", "USERS", "", false, false⟩,
        .tslice (.tstruct [(⟨"Name", "NAME", "", false, false⟩, .tstring)]))]
      [.vslice (.tstruct [(⟨"Name", "NAME", "", false, false⟩, .tstring)]) []] =
    .ok [.vslice (.tstruct [(⟨"Name", "NAME", "", false, false⟩, .tstring)])
      [.vstruct [.vstring ("A")]]] := by rfl

example :
    checkRequiredField [(⟨"Host", "HOST", "", true, false⟩, .tstring)] [.vstring ""] =
    some (.requiredMissing ("HOST")) := by rfl

example :
    LoadConfig 100 (.loaded tomlVals) hybridEnv ("hybridapp") testConfigFields none =
    (.ok (),
     some ⟨testConfigFields,
       [.vstruct [.vstring ("envhost"), .vint 8000],
        .vstruct [.vstring ("tomluser"), .vstring ("envpassword"),
                  .vslice .tstring [.vstring ("tomldb1"), .vstring ("tomldb2")]],
        .vslice (.tstruct userElemFields)
          [.vstruct [.vstring ("EnvAlice"), .vstring ("env_admin")],
           .vstruct [.vstring ("EnvBob"), .vstring ("env_user")]],
        .vbool true]⟩) := by rfl

example :
    LoadConfig 100 .absent [("TESTAPP_SERVER_HOST", "envhost"), ("TESTAPP_DATABASE_USER", "envuser")]
      ("TESTAPP") testConfigFields none =
    (.ok (),
     some ⟨testConfigFields,
       [.vstruct [.vstring ("envhost"), .vint 8080],
        .vstruct [.vstring ("envuser"), .vstring "", .vslice .tstring []],
        .vslice (.tstruct userElemFields) [],
        .vbool false]⟩) := by rfl

example :
    (LoadConfig 100 .absent [("TESTAPP_SERVER_PORT", "9090"), ("TESTAPP_DATABASE_USER", "envuser")]
      ("TESTAPP") testConfigFields none).1 =
    .err (.requiredMissing ("HOST")) := by rfl

end AhatConfig
